import Mathlib

/-!
Verification of the HistServ subsystem (irc/histserv.go): the history
selection resolver, the deletion authorization policy, the export
pipeline, and the playback renderer.

Shallow embedding conventions:
- Go `int` and `int64`/`time.Duration` are modelled as `Int` (no overflow
  occurs in the modelled arithmetic: it is only comparisons and one
  subtraction of a duration from a timestamp).
- Timestamps and durations are in nanoseconds, matching Go.
- Fallible external collaborator calls are modelled by `Option` results
  supplied as inputs: `none` models a non-nil Go `error` (for parses), or
  a nil Go pointer (for lookups), as noted at each definition.
-/

namespace Histserv

/-- history.Selector: a pair of bounds, either of which may be unset.
`none` models the Go zero value (zero `time.Time` / empty `Msgid`), as
produced by the literal `history.Selector{}` in the source. -/
structure Selector where
  time : Option Int
  msgid : Option String
deriving DecidableEq, Repr

/-- The argument triple of the external call
`sequence.Between(start, end, limit)` issued by easySelectHistory.
Go names the second selector `end`, which is a Lean keyword; it is
rendered `stop` here. -/
structure BetweenCall where
  start : Selector
  stop : Selector
  limit : Int
deriving DecidableEq, Repr

/-- Results of the two Go parse attempts on the second parameter of
easySelectHistory. `atoi = some n` models `strconv.Atoi(params[1])`
succeeding with value `n` (that is, `err == nil`); `atoi = none` models a
non-nil error. `dur = some d` models `time.ParseDuration(params[1])`
succeeding with `d` nanoseconds; `dur = none` a non-nil error. Both
fields describe the same string, e.g. the string "0" yields
`⟨some 0, some 0⟩` and the string "10m" yields `⟨none, some 600000000000⟩`;
a string accepted by ParseDuration with a nonzero value carries a unit
suffix, so it is never accepted by Atoi. -/
structure ArgParse where
  atoi : Option Int
  dur : Option Int
deriving DecidableEq, Repr

/-- The query-resolution core of easySelectHistory (after the target
normalization and the `server.GetHistorySequence` lookup, which are
external collaborator calls): computes the `Between` call issued to the
sequence. `secondArg = none` models `len(params) <= 1`; otherwise the
field holds the parse results for `params[1]`. `now` models
`time.Now().UTC()` in nanoseconds. Direct translation of the Go:
`limit := 100`, clamped to `maxChathistoryLimit`; then
`if err == nil && providedLimit != 0` takes the count branch (clamping
again), `else if err != nil` attempts the duration parse and on success
sets `limit = maxChathistoryLimit`; finally a zero `duration` issues an
unconstrained query, a nonzero one the window from `now` back to
`now - duration`. -/
def easySelectHistory (maxChathistoryLimit : Int) (secondArg : Option ArgParse)
    (now : Int) : BetweenCall :=
  let limit : Int := if maxChathistoryLimit < 100 then maxChathistoryLimit else 100
  let state : Int × Int :=
    match secondArg with
    | none => (limit, 0)
    | some arg =>
      match arg.atoi with
      | some providedLimit =>
        if providedLimit ≠ 0 then
          (if maxChathistoryLimit < providedLimit then maxChathistoryLimit
           else providedLimit, 0)
        else
          (limit, 0)
      | none =>
        match arg.dur with
        | some d => (maxChathistoryLimit, d)
        | none => (limit, 0)
  if state.2 = 0 then
    { start := { time := none, msgid := none },
      stop := { time := none, msgid := none },
      limit := state.1 }
  else
    { start := { time := some now, msgid := none },
      stop := { time := some (now - state.2), msgid := none },
      limit := state.1 }

/-- External collaborators consumed by histservDeleteHandler, supplied as
an environment. `hasHistoryCapab` models `client.HasRoleCapabs("history")`;
`allowIndividualDelete` models
`server.Config().History.Retention.AllowIndividualDelete`;
`channelExists t` models `server.channels.Get(t) != nil`;
`clientIsAtLeastOp t` models `channel.ClientIsAtLeast(client, modes.Operator)`
for that channel; `clientAccountName` models `client.AccountName()` (which
is "*" for a logged-out client); `deleteMessage target msgid accountName`
models `server.DeleteMessage`, returning `none` for a nil error and
`some e` for an error rendered as the string `e`. -/
structure DeleteEnv where
  hasHistoryCapab : Bool
  allowIndividualDelete : Bool
  channelExists : String → Bool
  clientIsAtLeastOp : String → Bool
  clientAccountName : String
  deleteMessage : String → String → String → Option String

/-- Observable outcome of histservDeleteHandler: the notices sent through
`service.Notice` (in order) and the argument triple
`(target, msgid, accountName)` of the `server.DeleteMessage` call, or
`none` when no store call was made. -/
structure DeleteOutcome where
  notices : List String
  deleteCall : Option (String × String × String)
deriving DecidableEq, Repr

/-- histservDeleteHandler: parameter splitting (`len(params) == 1` gives
only a msgid, otherwise `target, msgid = params[0], params[1]`), the
authorization block computing `accountName` and `isChanop`, the denial
check `!isOper && !isChanop && accountName == "*"`, the store call, and
the result notices. Notice strings follow the source; the Go
`fmt.Sprintf(client.t("Error deleting message: %v"), err)` is modelled as
string append. -/
def histservDeleteHandler (env : DeleteEnv) (params : List String) : DeleteOutcome :=
  let targetMsgid : String × String :=
    match params with
    | [msgid] => ("", msgid)
    | target :: msgid :: _ => (target, msgid)
    | [] => ("", "")
  let target := targetMsgid.1
  let msgid := targetMsgid.2
  let isOper := env.hasHistoryCapab
  let auth : String × Bool :=
    if isOper = false then
      if env.allowIndividualDelete = true then
        if (env.channelExists target && env.clientIsAtLeastOp target) = true then
          ("*", true)
        else
          (env.clientAccountName, false)
      else ("*", false)
    else ("*", false)
  let accountName := auth.1
  let isChanop := auth.2
  if isOper = false ∧ isChanop = false ∧ accountName = "*" then
    { notices := ["Insufficient privileges"], deleteCall := none }
  else
    match env.deleteMessage target msgid accountName with
    | none =>
      { notices := ["Successfully deleted message"],
        deleteCall := some (target, msgid, accountName) }
    | some e =>
      { notices := [if isOper then "Error deleting message: " ++ e
                    else "Could not delete message"],
        deleteCall := some (target, msgid, accountName) }

/-- The author constraint passed to `server.DeleteMessage`, when a store
call was made. -/
def deleteAuthor (o : DeleteOutcome) : Option String :=
  o.deleteCall.map (fun c => c.2.2)

/-- A concrete environment used to exercise theorems: an unprivileged
client with account "alice", deletion enabled, operator of every channel,
store deletes succeeding. -/
def chanopEnv : DeleteEnv :=
  { hasHistoryCapab := false, allowIndividualDelete := true,
    channelExists := fun _ => true, clientIsAtLeastOp := fun _ => true,
    clientAccountName := "alice", deleteMessage := fun _ _ _ => none }

/-- A concrete environment used to exercise theorems: a privileged actor
holding the history capability whose store delete fails with
"disk failure". -/
def operFailEnv : DeleteEnv :=
  { hasHistoryCapab := true, allowIndividualDelete := false,
    channelExists := fun _ => false, clientIsAtLeastOp := fun _ => false,
    clientAccountName := "*", deleteMessage := fun _ _ _ => some "disk failure" }

/-- Notices histservExportHandler may send through `service.Notice`. -/
inductive ExportNotice
  | invalidAccountName
  | errorOpeningFile (err : String)
  | startedExporting (account filename : String)
deriving DecidableEq, Repr

/-- Observable outcome of histservExportHandler: the notices sent, whether
the statement `go histservExportAndNotify(...)` was reached, and whether
the `outfile` handed to that goroutine is a successfully created file
(`os.Create` returns a nil `*os.File` alongside a non-nil error). -/
structure ExportHandlerOutcome where
  notices : List ExportNotice
  goroutineStarted : Bool
  outfileCreated : Bool
deriving DecidableEq, Repr

/-- histservExportHandler. `casefoldResult` models `CasefoldName(params[0])`
(`none` = non-nil error); `createError` models the error of
`os.Create(pathname)` (`none` = success). Direct translation: on casefold
failure the handler returns early; otherwise it sends either the
open-error notice or the started notice, and then — unconditionally, the
`go` statement sits after the if/else — starts the goroutine. -/
def histservExportHandler (casefoldResult : Option String)
    (createError : Option String) (filename : String) : ExportHandlerOutcome :=
  match casefoldResult with
  | none =>
    { notices := [ExportNotice.invalidAccountName],
      goroutineStarted := false, outfileCreated := false }
  | some cfAccount =>
    match createError with
    | some e =>
      { notices := [ExportNotice.errorOpeningFile e],
        goroutineStarted := true, outfileCreated := false }
    | none =>
      { notices := [ExportNotice.startedExporting cfAccount filename],
        goroutineStarted := true, outfileCreated := true }

/-- Observable events of one run of the histservExportAndNotify goroutine. -/
inductive ExportEvent
  | flushed
  | closed
  | recovered
  | sentNotice
deriving DecidableEq, Repr

/-- One deferred function of histservExportAndNotify: whether its body
calls `recover()` (which, per Go semantics, observes and clears an
in-flight panic when run during panicking), and the events it emits given
whether a panic is in flight when it runs. -/
structure GoDefer where
  callsRecover : Bool
  events : Bool → List ExportEvent

/-- Go defer semantics: after the function body ends (normally or by
panic), the deferred functions run one after another; a `recover()` call
in one of them clears the in-flight panic, so the ones after it (and the
caller) no longer see it. The list is in execution order, i.e. reverse
registration order. Returns the emitted events and whether a panic is
still propagating afterwards. -/
def runDefers : List GoDefer → Bool → List ExportEvent × Bool
  | [], panicking => ([], panicking)
  | d :: rest, panicking =>
    let evs := d.events panicking
    let after := runDefers rest (if d.callsRecover then false else panicking)
    (evs ++ after.1, after.2)

/-- The deferred functions of histservExportAndNotify in execution order
(reverse of registration order in the source): `writer.Flush()` (registered
last), `outfile.Close()`, then the recover-and-log closure registered
first, whose body logs exactly when `recover()` returned non-nil. -/
def exportDefers : List GoDefer :=
  [ { callsRecover := false, events := fun _ => [ExportEvent.flushed] },
    { callsRecover := false, events := fun _ => [ExportEvent.closed] },
    { callsRecover := true,
      events := fun panicking =>
        if panicking then [ExportEvent.recovered] else [] } ]

/-- The non-deferred body of histservExportAndNotify: the delegated
`server.historyDB.Export(cfAccount, writer)` call (whose potential panic
is the input `exportPanics`; a panic skips the rest of the body) and, on
normal completion, the `server.clients.Get(alertNick)` lookup and the
conditional completion notice. Returns the emitted events and whether a
panic is in flight at body exit. -/
def exportBody (exportPanics clientPresent clientPrivileged : Bool) :
    List ExportEvent × Bool :=
  if exportPanics then ([], true)
  else if clientPresent && clientPrivileged then ([ExportEvent.sentNotice], false)
  else ([], false)

/-- histservExportAndNotify as a whole: run the body, then the deferred
functions under Go panic/defer semantics. The second component is whether
a panic propagates out of the goroutine. -/
def histservExportAndNotify (exportPanics clientPresent clientPrivileged : Bool) :
    List ExportEvent × Bool :=
  let body := exportBody exportPanics clientPresent clientPrivileged
  let ds := runDefers exportDefers body.2
  (body.1 ++ ds.1, ds.2)

/-- history.ItemType as discriminated by histservPlayHandler: only
Privmsg and Notice are rendered; the remaining constructors of the Go
enumeration (Join, Part, Quit, Kick, Mode, Tagmsg, Nick, ...) are
collapsed into `Other`, which is all the handler distinguishes. -/
inductive ItemType
  | Privmsg
  | Notice
  | Join
  | Part
  | Quit
  | Other
deriving DecidableEq, Repr

/-- utils.MessagePair: one part of a split message (the `Concat` flag is
not consulted by this subsystem). -/
structure MessagePair where
  message : String
deriving DecidableEq, Repr

/-- utils.SplitMessage: the payload of a history item — a single string,
a shared timestamp (nanoseconds), and the list of split parts (empty for
a non-split message). -/
structure SplitMessage where
  message : String
  time : Int
  split : List MessagePair
deriving DecidableEq, Repr

/-- history.Item as consumed by the playback renderer: kind, sender
(`Nick` holds the full nick!user@host form) and payload. -/
structure HistoryItem where
  type : ItemType
  nick : String
  message : SplitMessage
deriving DecidableEq, Repr

/-- Modelled from the spec: the source function `NUHToNick` lives outside
the provided file; per the spec the sender identity is rendered in its
short display form, stripped of the extended identity suffix
(`nick!user@host` becomes `nick`). -/
def NUHToNick (nuh : String) : String :=
  match nuh.splitOn "!" with
  | [] => nuh
  | n :: _ => n

/-- The content of one rendered playback line, i.e. the arguments of the
`playMessage` closure: the timestamp (formatted `15:04:05` on the wire),
the short sender form, and the message text. -/
structure PlayLine where
  time : Int
  nick : String
  text : String
deriving DecidableEq, Repr

/-- One notice emitted by histservPlayHandler. -/
inductive PlayOutput
  | line (l : PlayLine)
  | endOfPlayback
  | couldNotRetrieve
deriving DecidableEq, Repr

/-- The lines the loop body of histservPlayHandler emits for one item:
kinds other than Privmsg and Notice are skipped (`continue`); an item with
no split parts yields one line from `item.Message.Message`; otherwise one
line per split part, each sharing the item timestamp and sender. -/
def renderItem (item : HistoryItem) : List PlayLine :=
  if item.type ≠ ItemType.Privmsg ∧ item.type ≠ ItemType.Notice then
    []
  else if item.message.split.isEmpty then
    [{ time := item.message.time, nick := NUHToNick item.nick,
       text := item.message.message }]
  else
    item.message.split.map fun pair =>
      { time := item.message.time, nick := NUHToNick item.nick,
        text := pair.message }

/-- histservPlayHandler: on a failed retrieval (`easySelectHistory`
returned an error) a single "Could not retrieve history" notice; otherwise
the rendered lines of every item in order followed by the
"End of history playback" notice. -/
def histservPlayHandler (result : Option (List HistoryItem)) : List PlayOutput :=
  match result with
  | none => [PlayOutput.couldNotRetrieve]
  | some items =>
    (items.flatMap fun item => (renderItem item).map PlayOutput.line)
      ++ [PlayOutput.endOfPlayback]

/-- A concrete playback item used to exercise theorems: a non-split
message. -/
def samplePrivmsg : HistoryItem :=
  { type := ItemType.Privmsg, nick := "alice!u@h",
    message := { message := "hello", time := 0, split := [] } }

/-- A concrete playback item used to exercise theorems: a non-split
notice. -/
def sampleNotice : HistoryItem :=
  { type := ItemType.Notice, nick := "bob!u@h",
    message := { message := "hi there", time := 5, split := [] } }

/-- C4: for every configured maximum M, every optional second argument and
every clock value, the limit easySelectHistory passes to Sequence.Between
is at most M. -/
theorem easySelectHistory_limit_le_max (M : Int) (arg : Option ArgParse) (now : Int) :
    (easySelectHistory M arg now).limit ≤ M := by
  rcases arg with _ | ⟨atoiRes, durRes⟩
  · simp only [easySelectHistory]
    split_ifs <;> simp <;> omega
  · rcases atoiRes with _ | c
    · rcases durRes with _ | d
      · simp only [easySelectHistory]
        split_ifs <;> simp <;> omega
      · simp only [easySelectHistory]
        split_ifs <;> simp
    · simp only [easySelectHistory]
      split_ifs <;> simp <;> omega

/-- C5: a second argument parsing as an integer c with c > 0 yields a
Between call with limit min(c, M) and empty (unconstrained) start and end
selectors. -/
theorem easySelectHistory_positive_count (M c now : Int) (arg : ArgParse)
    (hatoi : arg.atoi = some c) (hpos : 0 < c) :
    easySelectHistory M (some arg) now =
      { start := { time := none, msgid := none },
        stop := { time := none, msgid := none },
        limit := min c M } := by
  have hne : ¬ c = 0 := by omega
  simp only [easySelectHistory, hatoi]
  rcases lt_or_le M c with h | h
  · simp [hne, h, min_eq_right h.le]
  · simp [hne, not_lt.mpr h, min_eq_left h]

/-- C5 witness: a requested count of 50 under a configured maximum of 200
resolves to an unconstrained query with limit min(50, 200). -/
theorem easySelectHistory_positive_count_witness :
    easySelectHistory 200 (some { atoi := some 50, dur := none }) 0 =
      { start := { time := none, msgid := none },
        stop := { time := none, msgid := none },
        limit := min 50 200 } :=
  easySelectHistory_positive_count 200 50 0 { atoi := some 50, dur := none }
    rfl (by decide)

/-- C6: a second argument that does not parse as an integer but parses as
a positive duration d yields the backward window: start = now,
end = now − d, limit = the configured maximum. -/
theorem easySelectHistory_duration_window (M d now : Int) (arg : ArgParse)
    (hatoi : arg.atoi = none) (hdur : arg.dur = some d) (hpos : 0 < d) :
    easySelectHistory M (some arg) now =
      { start := { time := some now, msgid := none },
        stop := { time := some (now - d), msgid := none },
        limit := M } := by
  have hne : ¬ d = 0 := by omega
  simp [easySelectHistory, hatoi, hdur, hne]

/-- C6 witness: the duration "10m" (600000000000 ns, which Atoi rejects)
under configured maximum 200 yields start = now, end = now − 10m,
limit 200. -/
theorem easySelectHistory_duration_window_witness :
    easySelectHistory 200
        (some { atoi := none, dur := some 600000000000 }) 1700000000000000000 =
      { start := { time := some 1700000000000000000, msgid := none },
        stop := { time := some (1700000000000000000 - 600000000000), msgid := none },
        limit := 200 } :=
  easySelectHistory_duration_window 200 600000000000 1700000000000000000
    { atoi := none, dur := some 600000000000 } rfl rfl (by decide)

/-- C3 counterexample: the second argument "0" (Atoi succeeds with 0;
ParseDuration would also accept it as 0) under configured maximum 200 does
NOT fall through to the duration path: the resolved limit is the default
100, not the configured maximum 200 the claim predicts. -/
theorem easySelectHistory_zero_count_counterexample :
    (easySelectHistory 200 (some { atoi := some 0, dur := some 0 }) 0).limit = 100 ∧
    (easySelectHistory 200 (some { atoi := some 0, dur := some 0 }) 0).limit ≠ 200 := by
  decide

/-- C3 amended: a second argument parsing as the integer zero is rejected
as a count, but duration parsing is NOT attempted (it runs only when
integer parsing fails): the limit stays the default min(100, M) and the
query is unconstrained. -/
theorem easySelectHistory_zero_count (M now : Int) (arg : ArgParse)
    (hatoi : arg.atoi = some 0) :
    easySelectHistory M (some arg) now =
      { start := { time := none, msgid := none },
        stop := { time := none, msgid := none },
        limit := if M < 100 then M else 100 } := by
  simp [easySelectHistory, hatoi]

/-- C3 amended witness: with configured maximum 200 and second argument
"0", the resolved query is unconstrained with the default limit 100. -/
theorem easySelectHistory_zero_count_witness :
    easySelectHistory 200 (some { atoi := some 0, dur := some 0 }) 0 =
      { start := { time := none, msgid := none },
        stop := { time := none, msgid := none },
        limit := if (200 : Int) < 100 then 200 else 100 } :=
  easySelectHistory_zero_count 200 0 { atoi := some 0, dur := some 0 } rfl

/-- C10: a second argument parsing as a negative integer c is accepted as
a count: for any non-negative configured maximum M the clamp
`if M < limit` leaves c unchanged, no duration parsing happens, and the
query is unconstrained with the negative limit c itself. -/
theorem easySelectHistory_negative_count (M c now : Int) (arg : ArgParse)
    (hatoi : arg.atoi = some c) (hneg : c < 0) (hM : 0 ≤ M) :
    easySelectHistory M (some arg) now =
      { start := { time := none, msgid := none },
        stop := { time := none, msgid := none },
        limit := c } := by
  have hne : ¬ c = 0 := by omega
  have hlt : ¬ M < c := by omega
  simp [easySelectHistory, hatoi, hne, hlt]

/-- C10 witness: a requested count of −5 under configured maximum 200
resolves to an unconstrained query whose limit is −5 itself. -/
theorem easySelectHistory_negative_count_witness :
    easySelectHistory 200 (some { atoi := some (-5), dur := none }) 0 =
      { start := { time := none, msgid := none },
        stop := { time := none, msgid := none },
        limit := -5 } :=
  easySelectHistory_negative_count 200 (-5) 0 { atoi := some (-5), dur := none }
    rfl (by decide) (by decide)

/-- Helper: the detailed error notice is never the denial notice. -/
theorem errorNotice_ne_insufficient (e : String) :
    "Error deleting message: " ++ e ≠ "Insufficient privileges" := by
  intro h
  have hlen := congrArg String.length h
  rw [String.length_append] at hlen
  have h1 : ("Error deleting message: ").length = 24 := by decide
  have h2 : ("Insufficient privileges").length = 23 := by decide
  omega

/-- C1: the deletion authorization decision of histservDeleteHandler —
privileged actor: permitted with the wildcard author "*"; unprivileged
and deletion disabled: denied; unprivileged, deletion enabled, channel
operator of the target: permitted with the wildcard; unprivileged,
deletion enabled, not an operator but authenticated (account ≠ "*"):
permitted with exactly that account name; unprivileged, deletion enabled,
not an operator, unauthenticated: denied; and whenever the denial notice
is the outcome, DeleteMessage was not invoked. -/
theorem histservDeleteHandler_authorization (env : DeleteEnv) (target msgid : String) :
    (env.hasHistoryCapab = true →
      deleteAuthor (histservDeleteHandler env [target, msgid]) = some "*")
  ∧ (env.hasHistoryCapab = false → env.allowIndividualDelete = false →
      histservDeleteHandler env [target, msgid] =
        { notices := ["Insufficient privileges"], deleteCall := none })
  ∧ (env.hasHistoryCapab = false → env.allowIndividualDelete = true →
      (env.channelExists target && env.clientIsAtLeastOp target) = true →
      deleteAuthor (histservDeleteHandler env [target, msgid]) = some "*")
  ∧ (env.hasHistoryCapab = false → env.allowIndividualDelete = true →
      (env.channelExists target && env.clientIsAtLeastOp target) = false →
      env.clientAccountName ≠ "*" →
      deleteAuthor (histservDeleteHandler env [target, msgid]) =
        some env.clientAccountName)
  ∧ (env.hasHistoryCapab = false → env.allowIndividualDelete = true →
      (env.channelExists target && env.clientIsAtLeastOp target) = false →
      env.clientAccountName = "*" →
      histservDeleteHandler env [target, msgid] =
        { notices := ["Insufficient privileges"], deleteCall := none })
  ∧ (∀ params : List String,
      (histservDeleteHandler env params).notices = ["Insufficient privileges"] →
      (histservDeleteHandler env params).deleteCall = none) := by
  refine ⟨?_, ?_, ?_, ?_, ?_, ?_⟩
  · intro h
    simp only [histservDeleteHandler, deleteAuthor, h]
    rcases hdm : env.deleteMessage target msgid "*" with _ | e <;> simp [hdm]
  · intro h1 h2
    simp [histservDeleteHandler, h1, h2]
  · intro h1 h2 h3
    simp only [histservDeleteHandler, deleteAuthor, h1, h2, h3]
    rcases hdm : env.deleteMessage target msgid "*" with _ | e <;> simp [hdm]
  · intro h1 h2 h3 h4
    rcases hdm : env.deleteMessage target msgid env.clientAccountName with _ | e <;>
      simp [histservDeleteHandler, deleteAuthor, h1, h2, h3, h4, hdm]
  · intro h1 h2 h3 h4
    simp [histservDeleteHandler, h1, h2, h3, h4]
  · intro params hnot
    simp only [histservDeleteHandler] at hnot ⊢
    split_ifs at hnot ⊢ <;> try rfl
    all_goals (split at hnot)
    all_goals (simp only [] at hnot)
    all_goals (try exact absurd hnot (by decide))
    all_goals
      (rw [List.cons.injEq] at hnot
       exact absurd hnot.1 (errorNotice_ne_insufficient _))

/-- C1 witness: the spec scenario — unprivileged client, deletion
enabled, channel operator of "#general", deleting "abc123" — is permitted
with the wildcard author constraint. -/
theorem histservDeleteHandler_authorization_witness :
    deleteAuthor (histservDeleteHandler chanopEnv ["#general", "abc123"]) =
      some "*" :=
  (histservDeleteHandler_authorization chanopEnv "#general" "abc123").2.2.1
    rfl rfl rfl

/-- C9: when the store delete fails, the notice to an actor holding the
history capability carries the underlying error detail, while the notice
to any other permitted actor — the channel-operator path as well as the
own-account path — is the generic "Could not delete message". -/
theorem histservDeleteHandler_error_asymmetry (env : DeleteEnv) (target msgid e : String) :
    (env.hasHistoryCapab = true →
      env.deleteMessage target msgid "*" = some e →
      (histservDeleteHandler env [target, msgid]).notices =
        ["Error deleting message: " ++ e])
  ∧ (env.hasHistoryCapab = false → env.allowIndividualDelete = true →
      (env.channelExists target && env.clientIsAtLeastOp target) = true →
      env.deleteMessage target msgid "*" = some e →
      (histservDeleteHandler env [target, msgid]).notices =
        ["Could not delete message"])
  ∧ (env.hasHistoryCapab = false → env.allowIndividualDelete = true →
      (env.channelExists target && env.clientIsAtLeastOp target) = false →
      env.clientAccountName ≠ "*" →
      env.deleteMessage target msgid env.clientAccountName = some e →
      (histservDeleteHandler env [target, msgid]).notices =
        ["Could not delete message"]) := by
  refine ⟨?_, ?_, ?_⟩
  · intro h hdm
    simp [histservDeleteHandler, h, hdm]
  · intro h1 h2 h3 hdm
    simp [histservDeleteHandler, h1, h2, h3, hdm]
  · intro h1 h2 h3 h4 hdm
    simp [histservDeleteHandler, h1, h2, h3, h4, hdm]

/-- C9 witness: a privileged actor whose store delete fails with
"disk failure" is shown the detailed error notice. -/
theorem histservDeleteHandler_error_asymmetry_witness :
    (histservDeleteHandler operFailEnv ["#general", "abc123"]).notices =
      ["Error deleting message: " ++ "disk failure"] :=
  (histservDeleteHandler_error_asymmetry operFailEnv "#general" "abc123"
    "disk failure").1 rfl rfl

/-- C2: at the failing input — a valid account name with os.Create
failing — histservExportHandler reports the open error synchronously, yet
the `go histservExportAndNotify(...)` statement still runs (it sits after
the if/else), so the detached unit of work IS started, against the claim;
the spec-conformant behavior is seen only in that no success notice is
sent and no created outfile exists. -/
theorem histservExportHandler_create_failure_starts_goroutine :
    histservExportHandler (some "alice") (some "no such file or directory")
        "x.json" =
      { notices := [ExportNotice.errorOpeningFile "no such file or directory"],
        goroutineStarted := true, outfileCreated := false } := rfl

/-- C8: on every run of the detached export unit — whether the delegated
export completes normally or panics, and whatever the notify lookup
finds — the destination file is closed exactly once, no panic propagates
out of the goroutine, and the recover-and-log handler fires exactly when
the export panicked. -/
theorem histservExportAndNotify_close_once_panic_isolated
    (exportPanics clientPresent clientPrivileged : Bool) :
    ((histservExportAndNotify exportPanics clientPresent clientPrivileged).1.count
        ExportEvent.closed = 1)
  ∧ ((histservExportAndNotify exportPanics clientPresent clientPrivileged).2 = false)
  ∧ ((histservExportAndNotify exportPanics clientPresent clientPrivileged).1.count
        ExportEvent.recovered = if exportPanics then 1 else 0) := by
  cases exportPanics <;> cases clientPresent <;> cases clientPrivileged <;> decide

/-- C7: rendering N items, all messages or notices with zero split parts,
emits exactly N+1 outputs (the lines plus the end marker); an eligible
item contributes one line when it has no split parts and exactly k lines
when it has k of them; every rendered line reuses the item timestamp and
short sender form; items of other kinds contribute zero lines; and the
end-of-playback notice is emitted even for zero items. -/
theorem histservPlayHandler_line_counts :
    (∀ items : List HistoryItem,
      (∀ item ∈ items,
        (item.type = ItemType.Privmsg ∨ item.type = ItemType.Notice) ∧
        item.message.split = []) →
      (histservPlayHandler (some items)).length = items.length + 1)
  ∧ (∀ item : HistoryItem,
      (item.type = ItemType.Privmsg ∨ item.type = ItemType.Notice) →
      (renderItem item).length =
        (if item.message.split.isEmpty then 1 else item.message.split.length))
  ∧ (∀ item : HistoryItem, ∀ l ∈ renderItem item,
      l.time = item.message.time ∧ l.nick = NUHToNick item.nick)
  ∧ (∀ item : HistoryItem,
      item.type ≠ ItemType.Privmsg → item.type ≠ ItemType.Notice →
      renderItem item = [])
  ∧ histservPlayHandler (some []) = [PlayOutput.endOfPlayback] := by
  refine ⟨?_, ?_, ?_, ?_, rfl⟩
  · intro items h
    induction items with
    | nil => simp [histservPlayHandler]
    | cons hd tl ih =>
      obtain ⟨htype, hsplit⟩ := h hd (List.mem_cons_self hd tl)
      have hrender : (renderItem hd).length = 1 := by
        rcases htype with ht | ht <;> simp [renderItem, ht, hsplit]
      have ihtl := ih (fun i hi => h i (List.mem_cons_of_mem hd hi))
      simp only [histservPlayHandler, List.flatMap_cons, List.append_assoc,
        List.length_append, List.length_map, List.length_cons] at ihtl ⊢
      omega
  · intro item htype
    rcases htype with ht | ht <;>
      rcases hsp : item.message.split with _ | ⟨p, ps⟩ <;>
        simp [renderItem, ht, hsp]
  · intro item l hl
    simp only [renderItem] at hl
    split_ifs at hl with h1 h2
    · simp at hl
    · simp only [List.mem_singleton] at hl
      subst hl
      exact ⟨rfl, rfl⟩
    · rcases List.mem_map.mp hl with ⟨p, hp, rfl⟩
      exact ⟨rfl, rfl⟩
  · intro item h1 h2
    simp [renderItem, h1, h2]

/-- C7 witness: two eligible non-split items render to exactly three
outputs, the two lines plus the end marker. -/
theorem histservPlayHandler_line_counts_witness :
    (histservPlayHandler (some [samplePrivmsg, sampleNotice])).length = 3 :=
  histservPlayHandler_line_counts.1 [samplePrivmsg, sampleNotice] (by decide)

end Histserv
